import Mathlib

set_option maxHeartbeats 1000000
set_option maxRecDepth 4000

/-!
Verification development for the SWIG C backend (Source/Modules/c.cxx).

This file gives a shallow embedding of the parts of the backend that the
checked properties are about: the overload-suffix mangling
(get_mangled_type / functionWrapperAppendOverloaded), the wrapper-name
policy (getFunctionWrapperName), the C++ facade class wrapper
(cxx_class_wrapper: constructor with the multiple-inheritance check,
emit_member_function, and the closing emission from its destructor), the
enum emitter (enumDeclaration / enumvalueDeclaration), the C function
wrapper prototype builder (get_wrapper_func_proto and its callers), and
the cached derived-name helpers (get_c_proxy_name / getEnumName).

Output buffers written by a single DOH Printv call are modelled as lists
of string tokens appended in order (Printv stops at the first NULL
argument, which we model where relevant); buffers built up across many
calls are modelled as plain string concatenation when only the final text
matters.  Brace characters inside generated-code strings are written with
the escapes \x7b and \x7d.
-/

/- ===================== generic string helpers ===================== -/

/-- Replace every occurrence of the nonempty pattern `p :: ps` by `rep` in a
character list, scanning left to right, as DOH Replaceall does.  Fuel-based
so that the recursion is structural and terms reduce in the kernel; the
initial fuel is the length of the list, which is always sufficient since
every step consumes at least one character. -/
def replCharsAux (p : Char) (ps rep : List Char) : Nat → List Char → List Char
  | 0, l => l
  | _ + 1, [] => []
  | fuel + 1, c :: cs =>
    if (p :: ps).isPrefixOf (c :: cs) then
      rep ++ replCharsAux p ps rep fuel (cs.drop ps.length)
    else
      c :: replCharsAux p ps rep fuel cs

/-- DOH Replaceall: replace all occurrences of `pat` in `s` by `rep`. -/
def replaceAll (s pat rep : String) : String :=
  match pat.data with
  | [] => s
  | p :: ps => String.mk (replCharsAux p ps rep.data s.data.length s.data)

/-- First character of a string, as reading `*Char(s)` does in C
(the terminating NUL for an empty string). -/
def headChar (s : String) : Char := s.data.headD (Char.ofNat 0)

/-- `strStartsWith s t` holds when `t` is a leading substring of `s`
(`strncmp(s, t, strlen(t)) == 0`). -/
def strStartsWith (s t : String) : Bool := t.data.isPrefixOf s.data

/-- Drop the first `n` characters of a string. -/
def strDropChars (s : String) (n : Nat) : String := String.mk (s.data.drop n)

/-- Helper for Swig_scopename_last: the suffix of the character list after
the last `::` separator (the whole list when there is none). -/
def scopeLastAux (cur : List Char) : List Char → List Char
  | [] => cur.reverse
  | ':' :: ':' :: rest => scopeLastAux [] rest
  | c :: rest => scopeLastAux (c :: cur) rest

/-- Swig_scopename_last: the last `::`-separated component of a qualified
name.  (The real function also understands templates and operator names,
which do not occur in the inputs considered here.) -/
def scopenameLast (s : String) : String := String.mk (scopeLastAux [] s.data)

/-- Swig_scopename_prefix: everything before the last `::` separator, or
nothing when the name is unqualified. -/
def scopenamePfxOf (s : String) : Option String :=
  let lastC := scopeLastAux [] s.data
  if lastC.length = s.data.length then none
  else some (String.mk (s.data.take (s.data.length - lastC.length - 2)))

/-- Modelled from the spec: Swig_string_mangle / Swig_name_mangle live in
the SWIG core outside this repository; the spec only requires a
deterministic mangled form of a qualified name ("a namespace-derived
mangled prefix", "classes to their mangled base name").  We keep
identifier characters and replace everything else by an underscore. -/
def swigStringMangle (s : String) : String :=
  String.mk (s.data.map (fun c => if c.isAlphanum || c == '_' then c else '_'))

/-- Count occurrences of a token in a token list (used to state properties
of emitted token lists). -/
def countTok (t : String) : List String → Nat
  | [] => 0
  | x :: xs => (if x = t then 1 else 0) + countTok t xs

/-- The single indentation level used in the generated code (`cindent`). -/
def cindent : String := "  "

/- ===================== type mangling (get_mangled_type) ===================== -/

/-- One element of a SwigType prefix string, in the order it appears:
`p.` (pointer), `q(...)` (qualifier), `a(...)` (array), `m(...)` (member
pointer), `f(...)` (function; the argument signature is kept abstract as a
plain string since only its presence matters to the mangler). -/
inductive TypeElem where
  | ptr : TypeElem
  | qual : String → TypeElem
  | arr : String → TypeElem
  | memptr : String → TypeElem
  | func : String → TypeElem
deriving DecidableEq, Repr

/-- A fully typedef-resolved SwigType: its prefix elements and base type
string (for enums the base looks like `enum Name`). -/
structure SwigTy where
  elems : List TypeElem
  base : String
deriving DecidableEq, Repr

/-- SwigType_isbuiltin: the base type is one of the eight builtin names
checked by the `builtins` array at the top of c.cxx. -/
def isBuiltinName (s : String) : Bool :=
  s == "void" || s == "short" || s == "int" || s == "long" ||
  s == "char" || s == "float" || s == "double" || s == "bool"

/-- Text of one prefix element as it appears in a SwigType string. -/
def elemStr : TypeElem → String
  | TypeElem.ptr => "p."
  | TypeElem.qual q => "q(" ++ q ++ ")."
  | TypeElem.arr d => "a(" ++ d ++ ")."
  | TypeElem.memptr c => "m(" ++ c ++ ")."
  | TypeElem.func sig => "f(" ++ sig ++ ")."

/-- SwigType_prefix: concatenation of the prefix elements. -/
def swigTypePfx : List TypeElem → String
  | [] => ""
  | e :: rest => elemStr e ++ swigTypePfx rest

/-- The Replaceall chain applied to the prefix in get_mangled_type, in
source order: `.`→ ``, `const`→`c`, `volatile`→`v`, `a(`→`a`, `m(`→`m`,
`q(`→ ``, `)`→ ``, ` `→ ``. -/
def manglePfx (s : String) : String :=
  replaceAll (replaceAll (replaceAll (replaceAll (replaceAll (replaceAll
    (replaceAll (replaceAll s "." "") "const" "c") "volatile" "v")
    "a(" "a") "m(" "m") "q(" "") ")" "") " " ""

/-- `enum ` keyword stripping done on the result of Swig_scopename_last in
the enum branch of get_mangled_type. -/
def stripEnumKeyword (s : String) : String :=
  if strStartsWith s "enum " then strDropChars s 5 else s

/-- The base-type part of get_mangled_type: first letter for builtins,
`e` plus the unqualified name for enums, the mangled name otherwise. -/
def mangleBase (b : String) : String :=
  if isBuiltinName b then String.singleton (headChar b)
  else if strStartsWith b "enum " then "e" ++ stripEnumKeyword (scopenameLast b)
  else swigStringMangle b

/-- C::get_mangled_type (c.cxx:1622-1678).  Inputs are taken as already
fully typedef-resolved.  A member pointer is first converted to a plain
pointer; a pointer to a function mangles to just `f` (SwigType_ispointer
and SwigType_del_pointer skip one leading qualifier, hence the second
match arm); otherwise the transformed prefix of the original type is
followed by the mangled base type. -/
def get_mangled_type (t : SwigTy) : String :=
  let t1 : SwigTy :=
    match t.elems with
    | TypeElem.memptr _ :: rest => ⟨TypeElem.ptr :: rest, t.base⟩
    | _ => t
  match t1.elems with
  | TypeElem.ptr :: TypeElem.func _ :: _ => "f"
  | TypeElem.qual _ :: TypeElem.ptr :: TypeElem.func _ :: _ => "f"
  | _ => manglePfx (swigTypePfx t.elems) ++ mangleBase t.base

/-- C::functionWrapperAppendOverloaded (c.cxx:1753-1765): the suffix
appended to an overloaded wrapper name, one `_` plus mangled code per
parameter, in parameter order. -/
def overload_suffix : List SwigTy → String
  | [] => ""
  | p :: ps => "_" ++ get_mangled_type p ++ overload_suffix ps

/-- SwigType_isconst on a declarator string: it starts with `q(const).`. -/
def isConstDecl (decl : String) : Bool := strStartsWith decl "q(const)."

/-- The const/non-const overload scan of functionWrapperCPPSpecific
(c.cxx:1921-1932): the declarator of some other overload equals this const
declarator with its leading `q(const).` (9 characters) removed. -/
def hasNonConstTwin (decl : String) (siblingDecls : List String) : Bool :=
  siblingDecls.any (fun d => d == strDropChars decl 9)

/-- Name mangling for an overloaded function in functionWrapperCPPSpecific
(c.cxx:1902-1939): copy constructors are left alone; for a non-static,
non-constructor member the first (`this`) parameter is skipped and, when
the declarator is const-qualified and a non-const twin overload exists,
the literal suffix `_const` is appended before the parameter codes. -/
def cpp_overloaded_name (symname : String) (isCopyCtor isCtor ismember staticbase : Bool)
    (decl : String) (siblingDecls : List String) (parms : List SwigTy) : String :=
  if isCopyCtor then symname
  else
    match parms with
    | [] => symname
    | _ =>
      if !isCtor && ismember && !staticbase then
        let nm :=
          if isConstDecl decl && hasNonConstTwin decl siblingDecls then symname ++ "_const"
          else symname
        nm ++ overload_suffix parms.tail
      else
        symname ++ overload_suffix parms

/-- A pointer-to-function parameter type `void (*)(int)`. -/
def tyFnPtrInt : SwigTy := ⟨[TypeElem.ptr, TypeElem.func "int"], "void"⟩

/-- A pointer-to-function parameter type `void (*)(double)`: a different
parameter type mangling to the same code `f`. -/
def tyFnPtrDbl : SwigTy := ⟨[TypeElem.ptr, TypeElem.func "double"], "void"⟩

/-- The builtin parameter type `int`. -/
def tyIntB : SwigTy := ⟨[], "int"⟩

/-- The builtin parameter type `double`. -/
def tyDblB : SwigTy := ⟨[], "double"⟩

/- ===================== C++ facade class wrapper ===================== -/

/-- A base class as it appears in the `bases` list of a class node: its
`feature:ignore` flag, its `sym:name`, and its C proxy name. -/
structure BaseClass where
  ignored : Bool
  symname : String
  proxyname : String
deriving DecidableEq, Repr

/-- The base-list loop of the cxx_class_wrapper constructor
(c.cxx:340-357): ignored bases are skipped; a second usable base makes the
constructor warn and return before emitting anything (`none`); otherwise
the first usable base, if any, is kept (`some fb`). -/
def scan_bases : List BaseClass → Option BaseClass → Option (Option BaseClass)
  | [], fb => some fb
  | b :: rest, fb =>
    if b.ignored then scan_bases rest fb
    else
      match fb with
      | some _ => none
      | none => scan_bases rest (some b)

/-- The usable (non-ignored) bases of a class node (`bases` may be absent). -/
def usableBases (bases : Option (List BaseClass)) : List BaseClass :=
  (bases.getD []).filter (fun b => !b.ignored)

/-- Result of the cxx_class_wrapper constructor: the tokens it appended to
the forward-declarations and class-declarations sections, whether
`class_node_` was set (facade generation enabled for this class), whether
the multiple-inheritance diagnostic was emitted, and the recorded first
base. -/
structure CxxClassOpen where
  sect_types : List String
  sect_decls : List String
  class_node_set : Bool
  diagnostic : Bool
  first_base : Option BaseClass
deriving DecidableEq, Repr

/-- cxx_class_wrapper::cxx_class_wrapper (c.cxx:330-374).  When the
cxx_wrappers object is not initialized nothing happens; on a second usable
base the constructor warns and returns before any emission; otherwise the
forward declaration and the class-declaration opening are emitted.  (When
a base list is present but every base is ignored, the source passes a NULL
`first_base_` to Getattr inside Printv; we model that call as contributing
no base name text.) -/
def cxx_class_wrapper_open (initialized : Bool) (symname : String)
    (bases : Option (List BaseClass)) : CxxClassOpen :=
  if !initialized then ⟨[], [], false, false, none⟩
  else
    match bases with
    | none =>
      ⟨["class ", symname, ";\n"], ["class ", symname, "", " \x7b\npublic:\n"], true, false, none⟩
    | some bl =>
      match scan_bases bl none with
      | none => ⟨[], [], false, true, none⟩
      | some fb =>
        let base_classes : String :=
          match fb with
          | some b => " : public " ++ b.symname
          | none => " : public "
        ⟨["class ", symname, ";\n"], ["class ", symname, base_classes, " \x7b\npublic:\n"],
         true, false, fb⟩

/-- The flat-C side of C::classHandler in C++ mode (c.cxx:2312): the opaque
typedef for the class, emitted into the types section unconditionally. -/
def classHandler_c_typedef (proxyname : String) : List String :=
  ["typedef struct SwigObj_", proxyname, " ", proxyname, ";\n\n"]

/-- The exception-support mode of the module (enum exceptions_support). -/
inductive ExceptionsSupport where
  | enabled
  | disabled
  | imported
deriving DecidableEq, Repr

/-- cxx_wrappers::initialize_exceptions (c.cxx:265-297): the
(except_check_start, except_check_end) pair used around wrapped calls. -/
def except_check_pair : ExceptionsSupport → String × String
  | ExceptionsSupport.enabled => ("swig_check(", ")")
  | ExceptionsSupport.imported => ("swig_check(", ")")
  | ExceptionsSupport.disabled => ("", "")

/-- A resolved ctype typemap for a return value in the facade generator
(cxx_class_wrapper::type_desc): the rendered type and the wrapper
expressions put before and after a value of that type. -/
structure TypeDesc where
  ty : String
  wrap_start : String
  wrap_end : String
deriving DecidableEq, Repr

/-- The attributes of a function-like node consumed by
cxx_class_wrapper::emit_member_function.  The parameter lists `parms_cxx`
(C++ signature text) and `parms_call` (argument text passed to the C
wrapper) are the strings accumulated by the parameter loop
(c.cxx:439-468), taken as inputs since they are produced by external
typemap machinery; `parmsTmOk` records that every parameter had a ctype
typemap (otherwise the loop returns early with a warning). -/
structure MemberNode where
  inherited_from : Bool
  friendStorage : Bool
  ismember : Bool
  staticbase : Bool
  isCtor : Bool
  isDtor : Bool
  retVoid : Bool
  rtypeTm : Option TypeDesc
  parmsTmOk : Bool
  parms_cxx : String
  parms_call : String
  noexceptTrue : Bool
  throwOne : Bool
  hasThrows : Bool
  mname : String
  symname : String
  wname : String
  kindVariable : Bool
  memberget : Bool
  memberset : Bool
  varget : Bool
  varset : Bool
  qualifierConst : Bool
  virtualStorage : Bool
  copyCtor : Bool
deriving DecidableEq, Repr

/-- cxx_class_wrapper::get_const_suffix (c.cxx:811-814). -/
def get_const_suffix (qualifierConst : Bool) : String :=
  if qualifierConst then " const" else ""

/-- cxx_class_wrapper::get_virtual_prefix (c.cxx:806-808). -/
def get_virtual_pfx (virtualStorage : Bool) : String :=
  if virtualStorage then "virtual " else ""

/-- What one emit_member_function call appended to the class declaration
and implementation sections, whether it recorded a copy constructor, and
whether it emitted a warning. -/
structure MemberEmit where
  decls : List String
  impls : List String
  has_copy_ctor_set : Bool
  diagnostic : Bool
deriving DecidableEq, Repr

/-- cxx_class_wrapper::emit_member_function (c.cxx:385-633), as the tokens
appended to the two C++ sections.  Mirrors the source control flow: early
returns for a disabled class wrapper, inherited members and friends; early
returns with a warning when the return or a parameter has no ctype
typemap; the exception-check pair is emptied for `noexcept` members and
for non-throwing members without a `throws` list; then one branch per
member kind (variable accessors, constructor, destructor, plain member,
unknown). -/
def emit_member_function (class_open : Bool) (first_base : Option BaseClass)
    (classname : String) (pair : String × String) (n : MemberNode) : MemberEmit :=
  if !class_open then ⟨[], [], false, false⟩
  else if n.inherited_from then ⟨[], [], false, false⟩
  else if n.friendStorage then ⟨[], [], false, false⟩
  else
    let rdOpt : Option TypeDesc :=
      if !n.retVoid then n.rtypeTm else some ⟨"void", "", ""⟩
    match rdOpt with
    | none => ⟨[], [], false, true⟩
    | some rd =>
      if !n.parmsTmOk then ⟨[], [], false, true⟩
      else
        let is_static := n.ismember && n.staticbase
        let se : String × String :=
          if pair.1 ≠ "" then
            if n.noexceptTrue || (n.throwOne && !n.hasThrows) then ("", "") else pair
          else pair
        if n.kindVariable then
          if n.memberget then
            ⟨[cindent, rd.ty, " ", n.mname, "() const \x7b ", "return ", rd.wrap_start,
              n.symname, "(swig_self())", rd.wrap_end, "; \x7d\n"], [], false, false⟩
          else if n.memberset then
            ⟨[cindent, "void ", n.mname, "(", n.parms_cxx, ") \x7b ", n.symname,
              "(swig_self(), ", n.parms_call, "); \x7d\n"], [], false, false⟩
          else if n.varget then
            ⟨[cindent, "static ", rd.ty, " ", n.mname, "() \x7b ", "return ", rd.wrap_start,
              n.symname, "()", rd.wrap_end, "; \x7d\n"], [], false, false⟩
          else if n.varset then
            ⟨[cindent, "static void ", n.mname, "(", n.parms_cxx, ") \x7b ", n.symname,
              "(", n.parms_call, "); \x7d\n"], [], false, false⟩
          else
            ⟨[], [], false, true⟩
        else if n.isCtor then
          ⟨[cindent, classname, "(", n.parms_cxx, ");\n"],
           ["inline ", classname, "::", classname, "(", n.parms_cxx, ") : ", classname,
            "\x7b", se.1, n.wname, "(", n.parms_call, ")", se.2, "\x7d \x7b\x7d\n"],
           n.copyCtor, false⟩
        else if n.isDtor then
          match first_base with
          | some _ =>
            ⟨[cindent, get_virtual_pfx n.virtualStorage, "~", classname, "() \x7b\n",
              cindent, cindent, "if (swig_owns_self_) \x7b\n",
              cindent, cindent, cindent, n.wname, "(swig_self());\n",
              cindent, cindent, cindent, "swig_owns_self_ = false;\n",
              cindent, cindent, "\x7d\n",
              cindent, "\x7d\n"], [], false, false⟩
          | none =>
            ⟨[cindent, get_virtual_pfx n.virtualStorage, "~", classname, "() \x7b\n",
              cindent, cindent, "if (swig_owns_self_)\n",
              cindent, cindent, cindent, n.wname, "(swig_self_);\n",
              cindent, "\x7d\n"], [], false, false⟩
        else if n.ismember then
          let wparms0 : String := if !is_static then "swig_self()" else ""
          let wparms : String :=
            if n.parms_call ≠ "" then
              (if wparms0 ≠ "" then wparms0 ++ ", " else wparms0) ++ n.parms_call
            else wparms0
          let declToks : List String :=
            [cindent, if is_static then "static " else get_virtual_pfx n.virtualStorage,
             rd.ty, " ", n.mname, "(", n.parms_cxx, ")",
             get_const_suffix n.qualifierConst, ";\n"]
          let implHead : List String :=
            ["inline ", rd.ty, " ", classname, "::", n.mname, "(", n.parms_cxx, ")",
             get_const_suffix n.qualifierConst, " \x7b "]
          let implBody : List String :=
            if rd.ty = "void" then
              [n.wname, "(", wparms, ")"] ++
                (if se.1 ≠ "" then ["; ", se.1, se.2] else [])
            else
              ["return ", rd.wrap_start, se.1, n.wname, "(", wparms, ")", se.2, rd.wrap_end]
          ⟨declToks, implHead ++ implBody ++ ["; \x7d\n"], false, false⟩
        else
          ⟨[], [], false, true⟩

/- ========== closing emission of cxx_class_wrapper (its destructor) ========== -/

/-- cxx_class_wrapper::get_c_class_ptr (c.cxx:801-803): the C pointer type
used for objects of a wrapped class. -/
def get_c_class_ptr (proxyname : String) : String := "SwigObj_" ++ proxyname ++ "*"

/-- The constructor-from-opaque-pointer head emitted when the class wrapper
is closed (c.cxx:647-652). -/
def close_ctor_head (classname cptr : String) : List String :=
  ["\n", cindent, "explicit ", classname, "(", cptr,
   " swig_self, bool swig_owns_self = true) noexcept : "]

/-- The member-initializer of the constructor-from-pointer: delegation to
the base wrapper when there is one (c.cxx:657-661), direct field
initialization otherwise (c.cxx:664-667). -/
def close_ctor_init (first_base : Option BaseClass) : List String :=
  match first_base with
  | some b => [b.symname, "\x7b(", get_c_class_ptr b.proxyname, ")swig_self, swig_owns_self\x7d"]
  | none => ["swig_self_\x7bswig_self\x7d, swig_owns_self_\x7bswig_owns_self\x7d"]

/-- The deleted copy constructor, emitted only when no wrapped copy
constructor was seen (c.cxx:675-680). -/
def close_copy_ctor_del (has_copy_ctor : Bool) (classname : String) : List String :=
  if !has_copy_ctor then [cindent, classname, "(", classname, " const&) = delete;\n"] else []

/-- The deleted copy assignment operator, emitted unconditionally
(c.cxx:684-687). -/
def close_copy_assign_del (classname : String) : List String :=
  [cindent, classname, "& operator=(", classname, " const&) = delete;\n"]

/-- The move constructor and move assignment: defaulted when the class has
a base (c.cxx:691-694), explicit pointer/ownership transfer otherwise
(c.cxx:697-708). -/
def move_ops_tokens (first_base : Option BaseClass) (classname : String) : List String :=
  match first_base with
  | some _ =>
    [cindent, classname, "(", classname, "&& obj) = default;\n",
     cindent, classname, "& operator=(", classname, "&& obj) = default;\n"]
  | none =>
    [cindent, classname, "(", classname,
     "&& obj) noexcept : swig_self_\x7bobj.swig_self_\x7d, swig_owns_self_\x7bobj.swig_owns_self_\x7d \x7b obj.swig_owns_self_ = false; \x7d\n",
     cindent, classname, "& operator=(", classname,
     "&& obj) noexcept \x7b swig_self_ = obj.swig_self_; swig_owns_self_ = obj.swig_owns_self_; obj.swig_owns_self_ = false; return *this; \x7d\n"]

/-- The swig_self accessor body and, for classes without a base, the field
declarations (c.cxx:717-735). -/
def close_self_accessor (first_base : Option BaseClass) (cptr : String) : List String :=
  match first_base with
  | some b => ["\x7b return (", cptr, ")", b.symname, "::swig_self(); \x7d\n"]
  | none => ["\x7b return swig_self_; \x7d\n", cindent, cptr, " swig_self_;\n",
             cindent, "bool swig_owns_self_;\n"]

/-- cxx_class_wrapper::~cxx_class_wrapper (c.cxx:635-742): everything the
destructor appends to the class-declarations section, or nothing when
facade generation for the class was disabled in the constructor. -/
def cxx_class_close (class_open : Bool) (classname proxyname : String)
    (first_base : Option BaseClass) (has_copy_ctor : Bool) : List String :=
  if !class_open then []
  else
    let cptr := get_c_class_ptr proxyname
    close_ctor_head classname cptr ++ close_ctor_init first_base ++ [" \x7b\x7d\n"]
    ++ close_copy_ctor_del has_copy_ctor classname
    ++ close_copy_assign_del classname
    ++ move_ops_tokens first_base classname
    ++ [cindent, cptr, " swig_self() const noexcept "]
    ++ close_self_accessor first_base cptr
    ++ ["\x7d;\n\n"]

/- ========== semantics of the generated facade move operations ========== -/

/-- The runtime state of a generated facade object: the opaque pointer it
wraps (modelled as a number) and its ownership flag.  For a class with a
base the state lives in the root base subobject (a derived wrapper
declares no fields of its own, see close_self_accessor). -/
structure FacadeObj where
  swig_self : Nat
  swig_owns_self : Bool
deriving DecidableEq, Repr

/-- Semantics of the explicit move operations in move_ops_tokens for a
class without a base: the destination receives the pointer and
ownership flag of the source and the ownership flag of the source is set to false.  Returns
(destination, source afterwards). -/
def facade_move_root (obj : FacadeObj) : FacadeObj × FacadeObj :=
  (⟨obj.swig_self, obj.swig_owns_self⟩, ⟨obj.swig_self, false⟩)

/-- Semantics of a move at derivation depth `d`: a class with a base emits
`= default` move operations (move_ops_tokens with a base) and declares no
fields, so the defaulted move is the move of its base subobject; at the
root it is facade_move_root. -/
def facade_move : Nat → FacadeObj → FacadeObj × FacadeObj
  | 0, obj => facade_move_root obj
  | d + 1, obj => facade_move d obj

/- ===================== enum emission ===================== -/

/-- The classification of an enum item value type by SwigType_type, as far
as enumvalueDeclaration distinguishes it (T_BOOL, T_CHAR, anything else). -/
inductive ValueKind where
  | boolK : ValueKind
  | charK : ValueKind
  | otherK : ValueKind
deriving DecidableEq, Repr

/-- An enum item node as consumed by C::enumvalueDeclaration. -/
structure EnumItem where
  ismember : Bool
  access : String
  firstenumitem : Bool
  symname : String
  enumvalue : Option String
  vkind : ValueKind
deriving DecidableEq, Repr

/-- The survival test of C::enumvalueDeclaration (c.cxx:2529-2530): a
class member that is not public is not wrapped. -/
def enum_item_surviving (it : EnumItem) : Bool :=
  !(it.ismember && !(it.access == "public"))

/-- An apostrophe character, used to re-quote character enum values. -/
def quoteChar : Char := Char.ofNat 39

/-- The ` = value` part of one enum item (c.cxx:2546-2576): boolean
literals become 1/0 (anything else is an error, leaving a null value so
that Printv prints only the ` = `); character values are re-quoted (DOH
escaping of unprintable characters is left abstract); everything else
passes through.  The Bool is the Swig_error flag. -/
def enum_cvalue (it : EnumItem) : String × Bool :=
  match it.enumvalue with
  | none => ("", false)
  | some v =>
    match it.vkind with
    | ValueKind.boolK =>
      if v == "true" then (" = 1", false)
      else if v == "false" then (" = 0", false)
      else (" = ", true)
    | ValueKind.charK =>
      (" = " ++ String.singleton quoteChar ++ v ++ String.singleton quoteChar, false)
    | ValueKind.otherK => (" = " ++ v, false)

/-- Text appended to the C enum declaration by one surviving item
(c.cxx:2533-2576): a separating comma for items after the first, the
indent, the element prefix, the symbol name, and the value. -/
def enum_item_c_text (enumPfx : String) (it : EnumItem) : String :=
  (if !it.firstenumitem then ",\n" else "") ++ cindent ++ enumPfx ++ it.symname
    ++ (enum_cvalue it).1

/-- Text appended to the C++ enum declaration by one surviving item: same
as the C text but with the class-wrapper indent and no element prefix. -/
def enum_item_cxx_text (cxxIndent : String) (it : EnumItem) : String :=
  (if !it.firstenumitem then ",\n" else "") ++ cxxIndent ++ cindent ++ it.symname
    ++ (enum_cvalue it).1

/-- The accumulated C text of all surviving items of an enum. -/
def enum_items_c_text (enumPfx : String) : List EnumItem → String
  | [] => ""
  | it :: rest =>
    (if enum_item_surviving it then enum_item_c_text enumPfx it else "")
      ++ enum_items_c_text enumPfx rest

/-- The accumulated C++ text of all surviving items of an enum. -/
def enum_items_cxx_text (cxxIndent : String) : List EnumItem → String
  | [] => ""
  | it :: rest =>
    (if enum_item_surviving it then enum_item_cxx_text cxxIndent it else "")
      ++ enum_items_cxx_text cxxIndent rest

/-- The attributes of an enum node consumed by C::enumDeclaration. -/
structure EnumDeclInput where
  importMode : Bool
  inClass : Bool
  publicMode : Bool
  classProxy : String
  nsPfx : Option String
  tdname : Option String
  unnamed : Bool
  ename : Option String
  scopedenum : Bool
  cxxEnabled : Bool
  inClassWrapper : Bool
  items : List EnumItem
deriving DecidableEq, Repr

/-- What C::enumDeclaration appended: the text added to the C types
section, the text added to the C++ facade sections, and whether the C++
text went to the class-declarations section (inside a class wrapper)
rather than the types section. -/
structure EnumDeclOutput where
  c_out : String
  cxx_out : String
  cxx_to_decls : Bool
deriving DecidableEq, Repr

/-- The C++ enum indent: one extra level inside a class wrapper
(c.cxx:2430-2437). -/
def enum_cxx_indent (inp : EnumDeclInput) : String :=
  if inp.inClassWrapper then cindent else ""

/-- The element prefix before any name handling (c.cxx:2450-2455): the
proxy name of the enclosing class, or the global prefix, if any. -/
def enum_pfx0 (inp : EnumDeclInput) : Option String :=
  if inp.inClass then some inp.classProxy else inp.nsPfx

/-- The name-handling step of enumDeclaration (c.cxx:2457-2483): the C
declaration head, the C++ declaration head, and the element prefix after
accounting for the enum name (prefixed into the C head; for scoped enums
it becomes part of the element prefix as well).  Unnamed enums keep the
heads bare and leave the prefix alone. -/
def enum_step (inp : EnumDeclInput) : String × String × Option String :=
  let headC0 := (if inp.tdname.isSome then "typedef " else "") ++ "enum"
  let headX0 := enum_cxx_indent inp ++ (if inp.tdname.isSome then "typedef " else "") ++ "enum"
  match (if inp.unnamed then none else inp.ename) with
  | none => (headC0, headX0, enum_pfx0 inp)
  | some nm =>
    let en0 := scopenameLast nm
    let enC :=
      match enum_pfx0 inp with
      | some p => p ++ "_" ++ en0
      | none => en0
    ((headC0 ++ " " ++ enC), (headX0 ++ " " ++ en0),
     if inp.scopedenum then some enC else enum_pfx0 inp)

/-- The element prefix string `enum_prefix_` with its trailing underscore
(c.cxx:2483). -/
def enum_pfx_str (inp : EnumDeclInput) : String :=
  match (enum_step inp).2.2 with
  | some p => p ++ "_"
  | none => ""

/-- The C declaration head up to and including ` \x7b\n` (c.cxx:2485). -/
def enum_headC (inp : EnumDeclInput) : String := (enum_step inp).1 ++ " \x7b\n"

/-- The C++ declaration head up to and including ` \x7b\n` (c.cxx:2486-2487). -/
def enum_headX (inp : EnumDeclInput) : String := (enum_step inp).2.1 ++ " \x7b\n"

/-- The accumulated C item text of the enum (what the
enumvalueDeclaration calls appended between the length snapshots). -/
def enum_bodyC (inp : EnumDeclInput) : String :=
  enum_items_c_text (enum_pfx_str inp) inp.items

/-- The accumulated C++ item text of the enum. -/
def enum_bodyX (inp : EnumDeclInput) : String :=
  enum_items_cxx_text (enum_cxx_indent inp) inp.items

/-- The closing part of the C declaration (c.cxx:2496-2505). -/
def enum_tailC (inp : EnumDeclInput) : String :=
  "\n\x7d" ++
    (match inp.tdname with
     | some t => " " ++ enum_pfx_str inp ++ t
     | none => "") ++ ";\n\n"

/-- The closing part of the C++ declaration (c.cxx:2497-2507). -/
def enum_tailX (inp : EnumDeclInput) : String :=
  "\n" ++ enum_cxx_indent inp ++ "\x7d" ++
    (match inp.tdname with
     | some t => " " ++ t
     | none => "") ++ ";\n\n"

/-- C::enumDeclaration (c.cxx:2416-2522) together with the effect of
C::enumvalueDeclaration on its accumulation buffers: import mode and
non-public class enums are not wrapped; otherwise the declaration is
built in scratch buffers and flushed only when at least one item survived
(`Len(enum_decl) > len_orig`), which is equivalent to the accumulated
item text being nonempty; the C++ declaration is only produced when C++
wrappers are enabled, and goes to the class-declarations section when
inside a class wrapper. -/
def enumDeclaration_model (inp : EnumDeclInput) : EnumDeclOutput :=
  if inp.importMode then ⟨"", "", false⟩
  else if inp.inClass && !inp.publicMode then ⟨"", "", false⟩
  else if enum_bodyC inp ≠ "" then
    ⟨enum_headC inp ++ enum_bodyC inp ++ enum_tailC inp,
     if inp.cxxEnabled then enum_headX inp ++ enum_bodyX inp ++ enum_tailX inp else "",
     inp.inClassWrapper⟩
  else ⟨"", "", false⟩

/- ===================== wrapper name policy ===================== -/

/-- The attributes of a declaration consumed by C::getFunctionWrapperName:
whether a class is being wrapped (getCurrentClass), the member /
constructor / destructor / variable-accessor flags, the `feature:nspace`
flag of the parent node, and the scope of the declared name
(Swig_scopename_prefix of its `name`). -/
structure FuncNameInput where
  inClass : Bool
  ismember : Bool
  isCtor : Bool
  isDtor : Bool
  varget : Bool
  varset : Bool
  featureNspace : Bool
  scopePfx : Option String
deriving DecidableEq, Repr

/-- C::getFunctionWrapperName (c.cxx:1086-1128).  Class members,
constructors, destructors and variable accessors keep the plain name
(the source applies unary minus to the varget Checkattr result, which does
not change its truth value); everything else is prefixed, preferring the
mangled namespace scope when feature:nspace is set and the name is
qualified, then the configured global prefix, then the module name. -/
def getFunctionWrapperName (nsPfx : Option String) (moduleName : String)
    (inp : FuncNameInput) (nm : String) : String :=
  if (inp.inClass && (inp.ismember || inp.isCtor || inp.isDtor))
      || inp.varget || inp.varset then nm
  else
    let scopePfxMangled : Option String :=
      if inp.featureNspace then inp.scopePfx.map swigStringMangle else none
    let pfx :=
      match scopePfxMangled with
      | some p => p
      | none =>
        match nsPfx with
        | some p => p
        | none => moduleName
    pfx ++ "_" ++ nm

/- ===================== C wrapper prototype and vararg handling ===================== -/

/-- A parameter as consumed by C::get_wrapper_func_proto: the
`tmap:in:numinputs == 0` skip flag, whether its type is T_VOID or
T_VARARGS, its local name, and its ctype typemap, if any (a missing ctype
typemap produces a warning, and the NULL string truncates the Printv that
builds the parameter text). -/
structure ParamC where
  numinputs0 : Bool
  isVoid : Bool
  isVararg : Bool
  lname : String
  ctypeTm : Option String
deriving DecidableEq, Repr

/-- The parameter loop of C::get_wrapper_func_proto (c.cxx:1814-1876):
zero-input and void parameters are skipped, a vararg parameter raises
Swig_error and makes the function return a NULL string (`none`),
otherwise the parameter text is appended with a separating comma. -/
def wrapper_func_proto_loop : List ParamC → Bool → String → Option String
  | [], _, acc => some (acc ++ ")")
  | p :: ps, gencomma, acc =>
    if p.numinputs0 then wrapper_func_proto_loop ps gencomma acc
    else if p.isVoid then wrapper_func_proto_loop ps gencomma acc
    else if p.isVararg then none
    else
      let piece :=
        (if gencomma then ", " else "") ++
          (match p.ctypeTm with
           | some c => c ++ " c" ++ p.lname
           | none => "")
      wrapper_func_proto_loop ps true (acc ++ piece)

/-- C::get_wrapper_func_proto (c.cxx:1791-1880): the parenthesised
parameter list, or `none` (a NULL String in the source) when a vararg
parameter was found. -/
def get_wrapper_func_proto (parms : List ParamC) : Option String :=
  wrapper_func_proto_loop parms false "("

/-- A function declaration as consumed by C::functionWrapperCPPSpecific,
with the typemap-generated wrapper body abstracted as a plain string: the
claims checked here depend only on the prototype and the surrounding
fixed text. -/
structure FuncDeclC where
  rettype : String
  wname : String
  parms : List ParamC
  body : String
deriving DecidableEq, Repr

/-- The text C::functionWrapperCPPSpecific appends to the wrapper
implementation section (c.cxx:1977-2068): the definition head, the
prototype (nothing at all when get_wrapper_func_proto returned NULL,
since Printv stops at a NULL argument), the opening brace, the body and
the closing brace. -/
def functionWrapper_def_delta (f : FuncDeclC) : String :=
  "SWIGEXPORTC " ++ f.rettype ++ " " ++ f.wname
    ++ (match get_wrapper_func_proto f.parms with
        | some p => p
        | none => "")
    ++ " \x7b" ++ f.body ++ "\x7d\n"

/-- The text C::emit_wrapper_func_decl appends to the declarations header
section (c.cxx:1888-1894): a single Printv whose trailing `;` is only
reached when the prototype is not NULL. -/
def functionWrapper_decl_delta (f : FuncDeclC) : String :=
  "SWIGIMPORT " ++ f.rettype ++ " " ++ f.wname
    ++ (match get_wrapper_func_proto f.parms with
        | some p => p ++ ";\n\n"
        | none => "")

/-- Whether emitting this declaration raised the vararg Swig_error. -/
def functionWrapper_diag (f : FuncDeclC) : Bool :=
  (get_wrapper_func_proto f.parms).isNone

/-- The implementation-section text of a whole sequence of function
declarations, emitted left to right: emission continues after every
declaration, including rejected ones. -/
def emitModuleDefs : List FuncDeclC → String
  | [] => ""
  | f :: fs => functionWrapper_def_delta f ++ emitModuleDefs fs

/-- A concrete function declaration with a vararg parameter:
`int f(...)` after wrapper-name computation. -/
def varargExample : FuncDeclC :=
  ⟨"int", "test_f", [⟨false, false, true, "arg1", some "int"⟩], ""⟩

/- ===================== cached derived names ===================== -/

/-- A tree node as consumed by get_c_proxy_name and C::getEnumName: its
`sym:name`, `sym:nspace`, and `name` attributes, plus the two cached
derived-name attributes `proxyname` and `enumname`. -/
structure CNode where
  symname : Option String
  nspace : Option String
  name : Option String
  proxyname : Option String
  enumname : Option String
deriving DecidableEq, Repr

/-- Modelled from the spec: Swig_name_type lives in the SWIG core outside
this repository; with the `type` naming format registered in C::main it
returns the symbol name, with the registered global prefix prepended when
one was configured. -/
def swig_name_type (nsPfx : Option String) (s : String) : String :=
  match nsPfx with
  | some p => p ++ "_" ++ s
  | none => s

/-- get_c_proxy_name (c.cxx:205-223): returns the cached `proxyname`
attribute when present, otherwise computes it from `sym:nspace` and
`sym:name`, stores it on the node and returns it. -/
def get_c_proxy_name_model (nsPfx : Option String) (n : CNode) : String × CNode :=
  match n.proxyname with
  | some p => (p, n)
  | none =>
    let sym := n.symname.getD ""
    let p :=
      match n.nspace with
      | some ns => swigStringMangle ns ++ "_" ++ sym
      | none => swig_name_type nsPfx sym
    (p, { n with proxyname := some p })

/-- The environment of one getEnumName call: the enum node itself and the
node, if any, that classLookup returns for the scope of its name. -/
structure EnumEnv where
  node : CNode
  classNode : Option CNode
deriving DecidableEq, Repr

/-- C::getEnumName (c.cxx:1152-1181): returns the cached `enumname` when
present; otherwise, when the node has a `sym:name`, derives the name
either from the proxy name of the enclosing class (when the `name` is
scope-qualified and the class is known) or from the own proxy name of the
node, caches it on the node and returns it.  Proxy-name caching performed
along the way is preserved in the returned environment. -/
def getEnumName_model (nsPfx : Option String) (e : EnumEnv) : Option String × EnumEnv :=
  match e.node.enumname with
  | some en => (some en, e)
  | none =>
    match e.node.symname with
    | none => (none, e)
    | some sym =>
      let scopeOpt :=
        match e.node.name with
        | some nm => scopenamePfxOf nm
        | none => none
      match scopeOpt, e.classNode with
      | some _, some cn =>
        let r := get_c_proxy_name_model nsPfx cn
        let en := r.1 ++ "_" ++ sym
        (some en, ⟨{ e.node with enumname := some en }, some r.2⟩)
      | _, _ =>
        let r := get_c_proxy_name_model nsPfx e.node
        (some r.1, ⟨{ r.2 with enumname := some r.1 }, e.classNode⟩)

/-- One traversal of the modelled name-deriving pipeline over an
environment: emit the proxy name of the node and then its enum name, as
the emitters consume them, returning the output and the updated tree. -/
def emitNamesOnce (nsPfx : Option String) (e : EnumEnv) : (String × Option String) × EnumEnv :=
  let r1 := get_c_proxy_name_model nsPfx e.node
  let e1 : EnumEnv := ⟨r1.2, e.classNode⟩
  let r2 := getEnumName_model nsPfx e1
  ((r1.1, r2.1), r2.2)

/-- The two emissions of C::classHandler in C++ mode for one class
(c.cxx:2266-2314): the facade-side work of the cxx_class_wrapper
constructor and the flat-C opaque typedef, which does not look at the
base list at all. -/
def classHandler_cpp (proxyname symname : String) (bases : Option (List BaseClass))
    (cxxInit : Bool) : CxxClassOpen × List String :=
  (cxx_class_wrapper_open cxxInit symname bases, classHandler_c_typedef proxyname)

/-- A usable (non-ignored) base class `A`. -/
def baseA : BaseClass := ⟨false, "A", "A"⟩

/-- A usable (non-ignored) base class `B`. -/
def baseB : BaseClass := ⟨false, "B", "B"⟩

/-- A free function (no class, no accessor flags, no nspace feature). -/
def freeFnInput : FuncNameInput := ⟨false, false, false, false, false, false, false, none⟩

/-- A concrete `noexcept` member function `int get() noexcept` of a
wrapped class, whose C wrapper is `Foo_get`. -/
def noexceptMember : MemberNode :=
  { inherited_from := false, friendStorage := false, ismember := true, staticbase := false,
    isCtor := false, isDtor := false, retVoid := false,
    rtypeTm := some ⟨"int", "", ""⟩, parmsTmOk := true,
    parms_cxx := "", parms_call := "",
    noexceptTrue := true, throwOne := false, hasThrows := false,
    mname := "get", symname := "get", wname := "Foo_get",
    kindVariable := false, memberget := false, memberset := false,
    varget := false, varset := false,
    qualifierConst := false, virtualStorage := false, copyCtor := false }

/-- The same member function without the `noexcept` marking. -/
def throwingMember : MemberNode :=
  { noexceptMember with noexceptTrue := false }

/-- A concrete global enum `enum Color \x7b RED \x7d` with one public item,
emitted with C++ wrappers enabled and no global prefix. -/
def colorEnumInput : EnumDeclInput :=
  { importMode := false, inClass := false, publicMode := true, classProxy := "",
    nsPfx := none, tdname := none, unnamed := false, ename := some "Color",
    scopedenum := false, cxxEnabled := true, inClassWrapper := false,
    items := [⟨false, "public", true, "RED", none, ValueKind.otherK⟩] }

/-- The same enum with its only item ignored (a non-public member). -/
def emptyEnumInput : EnumDeclInput :=
  { colorEnumInput with
    inClass := true, classProxy := "Foo",
    items := [⟨true, "private", true, "RED", none, ValueKind.otherK⟩] }

/- ===================== helper lemmas ===================== -/

theorem string_data_append (a b : String) : (a ++ b).data = a.data ++ b.data := by
  cases a; cases b; rfl

theorem string_eq_of_data (a b : String) (h : a.data = b.data) : a = b := by
  cases a; cases b; exact congrArg String.mk h

theorem string_length_append (a b : String) : (a ++ b).length = a.length + b.length := by
  cases a; cases b; exact List.length_append _ _

theorem string_empty_append (s : String) : "" ++ s = s := by
  cases s; rfl

theorem data_singleton (c : Char) : (String.singleton c).data = [c] := rfl

theorem isPrefixOf_append_self {α : Type} [BEq α] [LawfulBEq α] (l1 l2 : List α) :
    l1.isPrefixOf (l1 ++ l2) = true := by
  induction l1 with
  | nil => simp [List.isPrefixOf]
  | cons a l ih => simp [List.isPrefixOf, ih]

theorem builtin_headChar_inj (b1 b2 : String) (h1 : isBuiltinName b1 = true)
    (h2 : isBuiltinName b2 = true) (h3 : headChar b1 = headChar b2) : b1 = b2 := by
  simp only [isBuiltinName, Bool.or_eq_true, beq_iff_eq] at h1 h2
  rcases h1 with ((((((h1|h1)|h1)|h1)|h1)|h1)|h1)|h1 <;>
    rcases h2 with ((((((h2|h2)|h2)|h2)|h2)|h2)|h2)|h2 <;>
    subst h1 <;> subst h2 <;> first | rfl | exact absurd h3 (by decide)

theorem builtin_mangle (t : SwigTy) (h1 : t.elems = []) (h2 : isBuiltinName t.base = true) :
    get_mangled_type t = String.singleton (headChar t.base) := by
  obtain ⟨es, b⟩ := t
  simp only at h1 h2
  subst h1
  have hz : manglePfx (swigTypePfx []) = "" := by decide
  simp [get_mangled_type, hz, string_empty_append, mangleBase, h2]

theorem overload_suffix_builtin_inj : ∀ (ps qs : List SwigTy),
    (∀ t ∈ ps, t.elems = [] ∧ isBuiltinName t.base = true) →
    (∀ t ∈ qs, t.elems = [] ∧ isBuiltinName t.base = true) →
    overload_suffix ps = overload_suffix qs → ps = qs := by
  intro ps
  induction ps with
  | nil =>
    intro qs _ hq h
    cases qs with
    | nil => rfl
    | cons q qs' =>
      exfalso
      obtain ⟨hqe, hqb⟩ := hq q (by simp)
      have hm := builtin_mangle q hqe hqb
      have hd : ([] : List Char) = (overload_suffix (q :: qs')).data := by
        rw [← h]; rfl
      rw [overload_suffix, hm] at hd
      have h1 : ("_" : String).data = ['_'] := rfl
      rw [string_data_append, string_data_append, h1, data_singleton] at hd
      simp at hd
  | cons p ps' ih =>
    intro qs hp hq h
    cases qs with
    | nil =>
      exfalso
      obtain ⟨hpe, hpb⟩ := hp p (by simp)
      have hm := builtin_mangle p hpe hpb
      have hd : (overload_suffix (p :: ps')).data = ([] : List Char) := by
        rw [h]; rfl
      rw [overload_suffix, hm] at hd
      have h1 : ("_" : String).data = ['_'] := rfl
      rw [string_data_append, string_data_append, h1, data_singleton] at hd
      simp at hd
    | cons q qs' =>
      obtain ⟨hpe, hpb⟩ := hp p (by simp)
      obtain ⟨hqe, hqb⟩ := hq q (by simp)
      have hmp := builtin_mangle p hpe hpb
      have hmq := builtin_mangle q hqe hqb
      have hd : (overload_suffix (p :: ps')).data = (overload_suffix (q :: qs')).data := by
        rw [h]
      rw [overload_suffix, overload_suffix, hmp, hmq] at hd
      have h1 : ("_" : String).data = ['_'] := rfl
      rw [string_data_append, string_data_append, string_data_append, string_data_append,
        h1, data_singleton, data_singleton] at hd
      simp only [List.cons_append, List.nil_append, List.cons.injEq, true_and] at hd
      obtain ⟨hc, ht⟩ := hd
      have hb : p.base = q.base := builtin_headChar_inj _ _ hpb hqb hc
      have hpq : p = q := by
        obtain ⟨pe, pb⟩ := p; obtain ⟨qe, qb⟩ := q
        simp only at hpe hqe hb
        subst hpe; subst hqe; subst hb; rfl
      have hrest : ps' = qs' :=
        ih qs' (fun t ht' => hp t (List.mem_cons_of_mem _ ht'))
          (fun t ht' => hq t (List.mem_cons_of_mem _ ht'))
          (string_eq_of_data _ _ ht)
      rw [hpq, hrest]

/- ===================== claim theorems ===================== -/

/-- C1 (counterexample): the claim that mangled suffixes are distinct for
every pair of overloads differing only by parameter types is false as
stated: the distinct parameter types `void (*)(int)` and
`void (*)(double)` both mangle to `f`, so two overloads taking them get
identical suffixes. -/
theorem C1_counterexample :
    tyFnPtrInt ≠ tyFnPtrDbl ∧
    overload_suffix [tyFnPtrInt] = overload_suffix [tyFnPtrDbl] := by
  exact ⟨by decide, rfl⟩

/-- C1 (amended): the mangled suffixes are distinct for every pair of
overloads whose parameter-type lists consist of builtin types (as in the
own example of the spec `f_i` vs `f_d`); distinct function-pointer types all
share the code `f`, so the unrestricted claim fails.  The `_const`
disambiguation part holds as stated: for a const/non-const overload pair
of a non-static member function (same symbol name, same parameter types),
the wrapper name of the const overload carries the extra literal `_const` and
the two wrapper names are distinct. -/
theorem C1_mangled_suffix_distinct :
    (∀ ps qs : List SwigTy,
      (∀ t ∈ ps, t.elems = [] ∧ isBuiltinName t.base = true) →
      (∀ t ∈ qs, t.elems = [] ∧ isBuiltinName t.base = true) →
      overload_suffix ps = overload_suffix qs → ps = qs) ∧
    (∀ (sym d d2 : String) (sibs sibs2 : List String) (parms : List SwigTy) (p q : SwigTy),
      hasNonConstTwin ("q(const)." ++ d) sibs = true →
      isConstDecl d2 = false →
      cpp_overloaded_name sym false false true false ("q(const)." ++ d) sibs (p :: parms) ≠
        cpp_overloaded_name sym false false true false d2 sibs2 (q :: parms)) := by
  constructor
  · exact overload_suffix_builtin_inj
  · intro sym d d2 sibs sibs2 parms p q htwin hnc
    have hcd : isConstDecl ("q(const)." ++ d) = true := by
      unfold isConstDecl strStartsWith
      rw [string_data_append]
      exact isPrefixOf_append_self _ _
    simp only [cpp_overloaded_name, hcd, htwin, hnc, List.tail_cons, Bool.not_false,
      Bool.and_self, Bool.true_and, Bool.and_true, Bool.false_and, Bool.and_false,
      Bool.false_eq_true, if_true, if_false, ite_true, ite_false, reduceIte]
    intro hcontra
    have hlen := congrArg String.length hcontra
    rw [string_length_append, string_length_append, string_length_append] at hlen
    have h6 : ("_const" : String).length = 6 := rfl
    rw [h6] at hlen
    omega

/-- C1 (witness): the hypotheses of the amended theorem are satisfiable at
the builtin parameter lists `[int]` and `[int]`. -/
theorem C1_witness : ([tyIntB] : List SwigTy) = [tyIntB] :=
  C1_mangled_suffix_distinct.1 [tyIntB] [tyIntB] (by decide) (by decide) rfl

theorem scan_bases_none_iff : ∀ (bl : List BaseClass) (fb : Option BaseClass),
    scan_bases bl fb = none ↔
      2 ≤ (bl.filter (fun b => !b.ignored)).length + (if fb.isSome then 1 else 0) := by
  intro bl
  induction bl with
  | nil => intro fb; cases fb <;> simp [scan_bases]
  | cons b rest ih =>
    intro fb
    by_cases hig : b.ignored = true
    · simp [scan_bases, hig, List.filter_cons, ih fb]
    · have hig' : b.ignored = false := by
        cases hb : b.ignored
        · rfl
        · exact absurd hb hig
      cases fb with
      | some x =>
        simp [scan_bases, hig', List.filter_cons]
      | none =>
        simp [scan_bases, hig', List.filter_cons, ih (some b)]

/-- C2: a second usable (non-ignored) base makes the cxx_class_wrapper
constructor record the diagnostic and disable facade generation for the
class: nothing is appended to the forward-declaration or
class-declaration sections, and with `class_node_` unset both
emit_member_function and the closing destructor emission produce nothing.
With zero or one usable base facade generation proceeds (forward
declaration emitted, no diagnostic).  The flat-C opaque typedef emitted by
classHandler does not depend on the base list at all and is never
empty. -/
theorem C2_multiple_inheritance_skips_facade :
    ∀ (symname proxyname : String) (bases : Option (List BaseClass)),
      (2 ≤ (usableBases bases).length →
        cxx_class_wrapper_open true symname bases = ⟨[], [], false, true, none⟩ ∧
        (∀ (fb : Option BaseClass) (cn : String) (pair : String × String) (m : MemberNode),
          emit_member_function (cxx_class_wrapper_open true symname bases).class_node_set
            fb cn pair m = ⟨[], [], false, false⟩) ∧
        (∀ (fb : Option BaseClass) (cn pn : String) (hcc : Bool),
          cxx_class_close (cxx_class_wrapper_open true symname bases).class_node_set
            cn pn fb hcc = [])) ∧
      ((usableBases bases).length ≤ 1 →
        (cxx_class_wrapper_open true symname bases).class_node_set = true ∧
        (cxx_class_wrapper_open true symname bases).diagnostic = false ∧
        (cxx_class_wrapper_open true symname bases).sect_types = ["class ", symname, ";\n"]) ∧
      (∀ bases2, (classHandler_cpp proxyname symname bases true).2 =
          (classHandler_cpp proxyname symname bases2 true).2 ∧
        (classHandler_cpp proxyname symname bases true).2 ≠ []) := by
  intro symname proxyname bases
  refine ⟨?_, ?_, ?_⟩
  · intro h2
    cases bases with
    | none => simp [usableBases] at h2
    | some bl =>
      have hscan : scan_bases bl none = none := by
        rw [scan_bases_none_iff]
        simpa [usableBases] using h2
      have hopen : cxx_class_wrapper_open true symname (some bl) = ⟨[], [], false, true, none⟩ := by
        simp [cxx_class_wrapper_open, hscan]
      refine ⟨hopen, ?_, ?_⟩
      · intro fb cn pair m
        rw [hopen]
        simp [emit_member_function]
      · intro fb cn pn hcc
        rw [hopen]
        simp [cxx_class_close]
  · intro h1
    cases bases with
    | none => simp [cxx_class_wrapper_open]
    | some bl =>
      have hscan : scan_bases bl none ≠ none := by
        intro hn
        rw [scan_bases_none_iff] at hn
        simp only [usableBases, Option.getD_some] at h1
        simp at hn
        omega
      obtain ⟨fb, hfb⟩ : ∃ fb, scan_bases bl none = some fb := by
        cases hs : scan_bases bl none with
        | none => exact absurd hs hscan
        | some fb => exact ⟨fb, rfl⟩
      simp [cxx_class_wrapper_open, hfb]
  · intro bases2
    exact ⟨rfl, by simp [classHandler_cpp, classHandler_c_typedef]⟩

/-- C2 (witness): a class with two usable bases is skipped with the
diagnostic recorded and no facade emission. -/
theorem C2_witness :
    cxx_class_wrapper_open true "D" (some [baseA, baseB]) = ⟨[], [], false, true, none⟩ :=
  ((C2_multiple_inheritance_skips_facade "D" "D" (some [baseA, baseB])).1 (by decide)).1

theorem countTok_append (t : String) (l1 l2 : List String) :
    countTok t (l1 ++ l2) = countTok t l1 + countTok t l2 := by
  induction l1 with
  | nil => simp [countTok]
  | cons x xs ih => simp [countTok, ih]; omega

/-- C10: the copy-assignment operator of every generated facade class is
emitted as deleted, unconditionally: the closing emission of the class
wrapper always contains the deleted-copy-assignment statement, whatever
the base and whether or not a wrapped copy constructor was seen. -/
theorem C10_copy_assignment_always_deleted :
    ∀ (classname proxyname : String) (fb : Option BaseClass) (hcc : Bool),
      close_copy_assign_del classname =
        [cindent, classname, "& operator=(", classname, " const&) = delete;\n"] ∧
      ∃ pre post, cxx_class_close true classname proxyname fb hcc =
        pre ++ close_copy_assign_del classname ++ post := by
  intro cn pn fb hcc
  refine ⟨rfl, ?_⟩
  refine ⟨close_ctor_head cn (get_c_class_ptr pn) ++ close_ctor_init fb ++ [" \x7b\x7d\n"]
      ++ close_copy_ctor_del hcc cn,
    move_ops_tokens fb cn ++ [cindent, get_c_class_ptr pn, " swig_self() const noexcept "]
      ++ close_self_accessor fb (get_c_class_ptr pn) ++ ["\x7d;\n\n"], ?_⟩
  simp [cxx_class_close, List.append_assoc]

/-- C7: the generated move operations transfer the pointer and the
ownership flag and always clear the ownership flag of the source, leaving the
flag of the destination equal to the prior value of the source, so the two objects
never both own the pointer after a move; this holds at every derivation
depth (a class with a base emits defaulted moves, which delegate to the
explicit moves of the root since derived facades declare no fields).  The
closing emission of every class contains its move operations, which are
the explicit transferring pair for classes without a base and the
defaulted pair for classes with one. -/
theorem C7_move_transfers_ownership :
    (∀ (d : Nat) (obj : FacadeObj),
      (facade_move d obj).2.swig_owns_self = false ∧
      (facade_move d obj).1 = obj ∧
      ¬((facade_move d obj).1.swig_owns_self = true ∧
        (facade_move d obj).2.swig_owns_self = true)) ∧
    (∀ cn : String, move_ops_tokens none cn =
      [cindent, cn, "(", cn,
       "&& obj) noexcept : swig_self_\x7bobj.swig_self_\x7d, swig_owns_self_\x7bobj.swig_owns_self_\x7d \x7b obj.swig_owns_self_ = false; \x7d\n",
       cindent, cn, "& operator=(", cn,
       "&& obj) noexcept \x7b swig_self_ = obj.swig_self_; swig_owns_self_ = obj.swig_owns_self_; obj.swig_owns_self_ = false; return *this; \x7d\n"]) ∧
    (∀ (cn : String) (b : BaseClass), move_ops_tokens (some b) cn =
      [cindent, cn, "(", cn, "&& obj) = default;\n",
       cindent, cn, "& operator=(", cn, "&& obj) = default;\n"]) ∧
    (∀ (cn pn : String) (fb : Option BaseClass) (hcc : Bool),
      ∃ pre post, cxx_class_close true cn pn fb hcc =
        pre ++ move_ops_tokens fb cn ++ post) := by
  refine ⟨?_, fun _ => rfl, fun _ _ => rfl, ?_⟩
  · intro d
    induction d with
    | zero =>
      intro obj
      refine ⟨rfl, rfl, ?_⟩
      simp [facade_move, facade_move_root]
    | succ n ih =>
      intro obj
      exact ih obj
  · intro cn pn fb hcc
    refine ⟨close_ctor_head cn (get_c_class_ptr pn) ++ close_ctor_init fb ++ [" \x7b\x7d\n"]
        ++ close_copy_ctor_del hcc cn ++ close_copy_assign_del cn,
      [cindent, get_c_class_ptr pn, " swig_self() const noexcept "]
        ++ close_self_accessor fb (get_c_class_ptr pn) ++ ["\x7d;\n\n"], ?_⟩
    simp [cxx_class_close, List.append_assoc]

/-- C8: the deleted copy constructor is emitted exactly when no wrapped
copy constructor was seen during emission of the class: the closing
emission contains the deleted-copy token ` const&) = delete;\n` twice in
that case (once for the copy constructor, once for the always-deleted
copy assignment) and only once — for the copy assignment — when a copy
constructor was wrapped.  The hypotheses only rule out the degenerate
names that would collide with the fixed token. -/
theorem C8_copy_ctor_deletion :
    ∀ (cn pn : String) (fb : Option BaseClass) (hcc : Bool),
      cn ≠ " const&) = delete;\n" →
      get_c_class_ptr pn ≠ " const&) = delete;\n" →
      (∀ b, fb = some b → b.symname ≠ " const&) = delete;\n" ∧
        get_c_class_ptr b.proxyname ≠ " const&) = delete;\n") →
      countTok " const&) = delete;\n" (cxx_class_close true cn pn fb hcc) =
        if hcc then 1 else 2 := by
  intro cn pn fb hcc h1 h2 h3
  cases fb with
  | none =>
    cases hcc <;>
      simp +decide [cxx_class_close, countTok_append, countTok, close_ctor_head,
        close_ctor_init, close_copy_ctor_del, close_copy_assign_del, move_ops_tokens,
        close_self_accessor, cindent, h1, h2]
  | some b =>
    obtain ⟨hb1, hb2⟩ := h3 b rfl
    cases hcc <;>
      simp +decide [cxx_class_close, countTok_append, countTok, close_ctor_head,
        close_ctor_init, close_copy_ctor_del, close_copy_assign_del, move_ops_tokens,
        close_self_accessor, cindent, h1, h2, hb1, hb2]

/-- C8 (witness): for a concrete class `Foo` without a base and without a
wrapped copy constructor the deleted-copy token appears twice. -/
theorem C8_witness :
    countTok " const&) = delete;\n" (cxx_class_close true "Foo" "Foo" none false) =
      if false then 1 else 2 :=
  C8_copy_ctor_deletion "Foo" "Foo" none false (by decide) (by decide)
    (fun b h => nomatch h)

/-- C4: a wrapper symbol keeps its plain name exactly when the declaration
is a class member, constructor or destructor (inside the class being
wrapped) or a variable getter/setter; every other declaration is prefixed,
preferring the mangled namespace scope when feature:nspace is set and the
name is scope-qualified, then the configured global prefix, then the
module name. -/
theorem C4_wrapper_name_policy :
    ∀ (nsP : Option String) (moduleName : String) (inp : FuncNameInput) (nm : String),
      (getFunctionWrapperName nsP moduleName inp nm = nm ↔
        ((inp.inClass && (inp.ismember || inp.isCtor || inp.isDtor))
          || inp.varget || inp.varset) = true) ∧
      (((inp.inClass && (inp.ismember || inp.isCtor || inp.isDtor))
          || inp.varget || inp.varset) = false →
        getFunctionWrapperName nsP moduleName inp nm =
          (match (if inp.featureNspace then inp.scopePfx.map swigStringMangle else none) with
           | some p => p
           | none =>
             match nsP with
             | some p => p
             | none => moduleName) ++ "_" ++ nm) := by
  intro nsP moduleName inp nm
  by_cases hc : ((inp.inClass && (inp.ismember || inp.isCtor || inp.isDtor))
      || inp.varget || inp.varset) = true
  · refine ⟨⟨fun _ => hc, fun _ => by simp [getFunctionWrapperName, hc]⟩, ?_⟩
    intro hfalse
    rw [hc] at hfalse
    cases hfalse
  · have hc' : ((inp.inClass && (inp.ismember || inp.isCtor || inp.isDtor))
        || inp.varget || inp.varset) = false := by
      cases h : ((inp.inClass && (inp.ismember || inp.isCtor || inp.isDtor))
          || inp.varget || inp.varset)
      · rfl
      · exact absurd h hc
    have hval : getFunctionWrapperName nsP moduleName inp nm =
        (match (if inp.featureNspace then inp.scopePfx.map swigStringMangle else none) with
         | some p => p
         | none =>
           match nsP with
           | some p => p
           | none => moduleName) ++ "_" ++ nm := by
      simp [getFunctionWrapperName, hc']
    refine ⟨⟨fun heq => ?_, fun h => absurd h hc⟩, fun _ => hval⟩
    exfalso
    rw [hval] at heq
    have hl := congrArg String.length heq
    rw [string_length_append, string_length_append] at hl
    have h1 : ("_" : String).length = 1 := rfl
    rw [h1] at hl
    omega

/-- C4 (witness): a free function with no prefixes configured gets the
module name as its prefix. -/
theorem C4_witness :
    getFunctionWrapperName none "testmod" freeFnInput "f" =
      (match (if freeFnInput.featureNspace
              then freeFnInput.scopePfx.map swigStringMangle else none) with
       | some p => p
       | none =>
         match (none : Option String) with
         | some p => p
         | none => "testmod") ++ "_" ++ "f" :=
  (C4_wrapper_name_policy none "testmod" freeFnInput "f").2 (by decide)

theorem ne_ite_of_ne {α : Type} {c : Prop} [Decidable c] {a b : α} {x : α}
    (h1 : x ≠ a) (h2 : x ≠ b) : x ≠ if c then a else b := by
  by_cases hc : c <;> simp [hc, h1, h2]

theorem swig_check_ne_self_call (pc : String) :
    "swig_check(" ≠ ("swig_self()" ++ ", ") ++ pc := by
  intro h
  have hl := congrArg String.length h
  rw [string_length_append, string_length_append] at hl
  have h1 : ("swig_check(" : String).length = 11 := rfl
  have h2 : ("swig_self()" : String).length = 11 := rfl
  have h3 : (", " : String).length = 2 := rfl
  rw [h1, h2, h3] at hl
  omega

theorem swig_check_ne_self_call' (pc : String) :
    "swig_check(" ≠ "swig_self(), " ++ pc := by
  intro h
  have hl := congrArg String.length h
  rw [string_length_append] at hl
  have h1 : ("swig_check(" : String).length = 11 := rfl
  have h2 : ("swig_self(), " : String).length = 13 := rfl
  rw [h1, h2] at hl
  omega

/-- C6: with exception support enabled, the facade body generated for a
plain (non-constructor, non-destructor, non-variable) member function
contains the pending-exception check token `swig_check(` exactly when the
member is neither marked noexcept nor marked non-throwing
(`throw == "1"`) with no declared exception list.  The inequality
hypotheses only rule out degenerate user identifiers that would collide
with the fixed token. -/
theorem C6_noexcept_skips_exception_check :
    ∀ (fb : Option BaseClass) (classname : String) (n : MemberNode) (td : TypeDesc),
      (if !n.retVoid then n.rtypeTm else some ⟨"void", "", ""⟩) = some td →
      "swig_check(" ≠ td.ty → "swig_check(" ≠ td.wrap_start → "swig_check(" ≠ td.wrap_end →
      "swig_check(" ≠ classname → "swig_check(" ≠ n.mname → "swig_check(" ≠ n.parms_cxx →
      "swig_check(" ≠ n.wname → "swig_check(" ≠ n.parms_call →
      n.inherited_from = false → n.friendStorage = false → n.parmsTmOk = true →
      n.ismember = true → n.kindVariable = false → n.isCtor = false → n.isDtor = false →
      ("swig_check(" ∈ (emit_member_function true fb classname
          (except_check_pair ExceptionsSupport.enabled) n).impls ↔
        (n.noexceptTrue || (n.throwOne && !n.hasThrows)) = false) := by
  intro fb classname n td hrd hne1 hne2 hne3 hne4 hne5 hne6 hne7 hne8 hin hfr hpt him hkv hct hdt
  have hconst : "swig_check(" ≠ get_const_suffix n.qualifierConst := by
    unfold get_const_suffix
    exact ne_ite_of_ne (by decide) (by decide)
  by_cases hty : td.ty = "void" <;> by_cases hsb : n.staticbase = true <;>
    by_cases hpc0 : n.parms_call = "" <;>
    cases hnx : n.noexceptTrue <;> cases hthr : n.throwOne <;> cases hthw : n.hasThrows <;>
    simp_all [emit_member_function, except_check_pair, hrd, swig_check_ne_self_call,
      swig_check_ne_self_call', string_empty_append]

/-- C6 (witness): the concrete `noexcept` method gets no check and its
non-noexcept sibling form is covered by the same equivalence. -/
theorem C6_witness :
    ("swig_check(" ∈ (emit_member_function true none "Foo"
        (except_check_pair ExceptionsSupport.enabled) noexceptMember).impls ↔
      (noexceptMember.noexceptTrue ||
        (noexceptMember.throwOne && !noexceptMember.hasThrows)) = false) :=
  C6_noexcept_skips_exception_check none "Foo" noexceptMember ⟨"int", "", ""⟩ rfl
    (by decide) (by decide) (by decide) (by decide) (by decide) (by decide) (by decide)
    (by decide) rfl rfl rfl rfl rfl rfl rfl

theorem string_ne_empty_of_len {s : String} (h : 0 < s.length) : s ≠ "" := by
  intro heq
  rw [heq] at h
  exact absurd h (by decide)

theorem enum_items_c_text_all_skipped (pfx : String) :
    ∀ items : List EnumItem, (∀ it ∈ items, enum_item_surviving it = false) →
      enum_items_c_text pfx items = "" := by
  intro items
  induction items with
  | nil => intro _; rfl
  | cons it rest ih =>
    intro h
    have h1 : enum_item_surviving it = false := h it (by simp)
    have h2 : enum_items_c_text pfx rest = "" :=
      ih (fun x hx => h x (List.mem_cons_of_mem _ hx))
    simp [enum_items_c_text, h1, h2, string_empty_append]

theorem enum_items_cxx_text_all_skipped (cxxIndent : String) :
    ∀ items : List EnumItem, (∀ it ∈ items, enum_item_surviving it = false) →
      enum_items_cxx_text cxxIndent items = "" := by
  intro items
  induction items with
  | nil => intro _; rfl
  | cons it rest ih =>
    intro h
    have h1 : enum_item_surviving it = false := h it (by simp)
    have h2 : enum_items_cxx_text cxxIndent rest = "" :=
      ih (fun x hx => h x (List.mem_cons_of_mem _ hx))
    simp [enum_items_cxx_text, h1, h2, string_empty_append]

theorem enum_item_c_text_len (pfx : String) (it : EnumItem) :
    2 ≤ (enum_item_c_text pfx it).length := by
  unfold enum_item_c_text
  rw [string_length_append, string_length_append, string_length_append,
    string_length_append]
  have h1 : (cindent : String).length = 2 := rfl
  rw [h1]
  omega

theorem enum_items_c_text_survivor (pfx : String) :
    ∀ items : List EnumItem, (∃ it ∈ items, enum_item_surviving it = true) →
      0 < (enum_items_c_text pfx items).length := by
  intro items
  induction items with
  | nil => intro h; simp at h
  | cons it rest ih =>
    intro h
    rw [enum_items_c_text, string_length_append]
    by_cases hs : enum_item_surviving it = true
    · rw [if_pos hs]
      have := enum_item_c_text_len pfx it
      omega
    · have hrest : ∃ x ∈ rest, enum_item_surviving x = true := by
        obtain ⟨x, hx, hsx⟩ := h
        rcases List.mem_cons.mp hx with heq | hmem
        · exact absurd (heq ▸ hsx) hs
        · exact ⟨x, hmem, hsx⟩
      have := ih hrest
      omega

/-- C3: an enum whose elements are all ignored (for example all
non-public class members) produces no declaration text at all, in either
the C types section or the C++ facade sections; an enum with at least one
surviving element has its accumulated declaration flushed to the C output
and, when C++ wrappers are enabled, to the C++ output. -/
theorem C3_empty_enum_not_emitted :
    ∀ inp : EnumDeclInput,
      inp.importMode = false →
      (inp.inClass = true → inp.publicMode = true) →
      ((∀ it ∈ inp.items, enum_item_surviving it = false) →
        enumDeclaration_model inp = ⟨"", "", false⟩) ∧
      ((∃ it ∈ inp.items, enum_item_surviving it = true) →
        enumDeclaration_model inp =
          ⟨enum_headC inp ++ enum_bodyC inp ++ enum_tailC inp,
           if inp.cxxEnabled then enum_headX inp ++ enum_bodyX inp ++ enum_tailX inp
           else "", inp.inClassWrapper⟩ ∧
        (enumDeclaration_model inp).c_out ≠ "" ∧
        (inp.cxxEnabled = true → (enumDeclaration_model inp).cxx_out ≠ "")) := by
  intro inp himp hpub
  have hcls : (inp.inClass && !inp.publicMode) = false := by
    cases hin : inp.inClass
    · rfl
    · rw [hpub hin]; rfl
  constructor
  · intro hall
    have hc : enum_bodyC inp = "" :=
      enum_items_c_text_all_skipped _ inp.items hall
    simp [enumDeclaration_model, himp, hcls, hc]
  · intro hex
    have hpos : 0 < (enum_bodyC inp).length :=
      enum_items_c_text_survivor _ inp.items hex
    have hbody : enum_bodyC inp ≠ "" := string_ne_empty_of_len hpos
    have hout : enumDeclaration_model inp =
        ⟨enum_headC inp ++ enum_bodyC inp ++ enum_tailC inp,
         if inp.cxxEnabled then enum_headX inp ++ enum_bodyX inp ++ enum_tailX inp
         else "", inp.inClassWrapper⟩ := by
      simp [enumDeclaration_model, himp, hcls, hbody]
    refine ⟨hout, ?_, ?_⟩
    · rw [hout]
      apply string_ne_empty_of_len
      rw [string_length_append, string_length_append]
      omega
    · intro hcxx
      rw [hout]
      simp only [hcxx, if_true, ite_true]
      apply string_ne_empty_of_len
      rw [string_length_append, string_length_append]
      have h3 : 0 < (enum_tailX inp).length := by
        unfold enum_tailX
        rw [string_length_append, string_length_append, string_length_append,
          string_length_append]
        have hx : ("\n" : String).length = 1 := rfl
        rw [hx]
        omega
      omega

/-- C3 (witness): the concrete global enum with one public item is
flushed and nonempty in both outputs; the all-ignored variant is covered
by the first branch of the same theorem. -/
theorem C3_witness :
    (enumDeclaration_model colorEnumInput).c_out ≠ "" :=
  (((C3_empty_enum_not_emitted colorEnumInput rfl (fun h => nomatch h)).2
    ⟨⟨false, "public", true, "RED", none, ValueKind.otherK⟩, by decide, by decide⟩).2).1

theorem string_append_empty (s : String) : s ++ "" = s := by
  cases s
  show String.mk _ = _
  simp [String.append]

theorem string_append_assoc (a b c : String) : (a ++ b) ++ c = a ++ (b ++ c) := by
  cases a; cases b; cases c
  show String.mk _ = String.mk _
  simp [String.append]

theorem proto_loop_none_iff : ∀ (ps : List ParamC) (g : Bool) (acc : String),
    wrapper_func_proto_loop ps g acc = none ↔
      ∃ p ∈ ps, p.numinputs0 = false ∧ p.isVoid = false ∧ p.isVararg = true := by
  intro ps
  induction ps with
  | nil => intro g acc; simp [wrapper_func_proto_loop]
  | cons p rest ih =>
    intro g acc
    by_cases h1 : p.numinputs0 = true
    · simp [wrapper_func_proto_loop, h1, ih]
    · have h1' : p.numinputs0 = false := by
        cases h : p.numinputs0
        · rfl
        · exact absurd h h1
      by_cases h2 : p.isVoid = true
      · simp [wrapper_func_proto_loop, h1', h2, ih]
      · have h2' : p.isVoid = false := by
          cases h : p.isVoid
          · rfl
          · exact absurd h h2
        by_cases h3 : p.isVararg = true
        · simp [wrapper_func_proto_loop, h1', h2', h3]
        · have h3' : p.isVararg = false := by
            cases h : p.isVararg
            · rfl
            · exact absurd h h3
          simp [wrapper_func_proto_loop, h1', h2', h3', ih]

theorem emitModuleDefs_append : ∀ (fs gs : List FuncDeclC),
    emitModuleDefs (fs ++ gs) = emitModuleDefs fs ++ emitModuleDefs gs := by
  intro fs gs
  induction fs with
  | nil => simp [emitModuleDefs, string_empty_append]
  | cons f fs ih => simp [emitModuleDefs, ih, string_append_assoc]

/-- C5 (counterexample): the claim that a vararg declaration produces no
wrapper output in either buffer is false as stated: for the concrete
vararg function `int f(...)` the Swig_error diagnostic is raised, yet the
implementation buffer still receives the truncated definition
(`SWIGEXPORTC int test_f \x7b...\x7d`, without a parameter list) and the
header buffer still receives the truncated unterminated declaration
(`SWIGIMPORT int test_f`): Printv only drops the arguments after the NULL
prototype. -/
theorem C5_counterexample :
    functionWrapper_diag varargExample = true ∧
    functionWrapper_def_delta varargExample ≠ "" ∧
    functionWrapper_decl_delta varargExample ≠ "" := by
  refine ⟨by decide, by decide, by decide⟩

/-- C5 (amended): a function declaration containing a vararg parameter
(not suppressed by a zero-input typemap) is rejected with the Swig_error
diagnostic and no parameter-list prototype is produced for it: the
definition written to the implementation buffer and the declaration
written to the header buffer are left without any parameter-list text
(the declaration also without its terminating semicolon), and emission of
the rest of the module continues unaffected around it. -/
theorem C5_vararg_rejected :
    ∀ f : FuncDeclC,
      (∃ p ∈ f.parms, p.numinputs0 = false ∧ p.isVoid = false ∧ p.isVararg = true) →
      functionWrapper_diag f = true ∧
      get_wrapper_func_proto f.parms = none ∧
      functionWrapper_def_delta f =
        "SWIGEXPORTC " ++ f.rettype ++ " " ++ f.wname ++ " \x7b" ++ f.body ++ "\x7d\n" ∧
      functionWrapper_decl_delta f = "SWIGIMPORT " ++ f.rettype ++ " " ++ f.wname ∧
      (∀ fs gs, emitModuleDefs (fs ++ f :: gs) =
        emitModuleDefs fs ++ functionWrapper_def_delta f ++ emitModuleDefs gs) := by
  intro f hex
  have hnone : get_wrapper_func_proto f.parms = none := by
    unfold get_wrapper_func_proto
    rw [proto_loop_none_iff]
    exact hex
  refine ⟨?_, hnone, ?_, ?_, ?_⟩
  · simp [functionWrapper_diag, hnone]
  · simp [functionWrapper_def_delta, hnone, string_append_empty]
  · simp [functionWrapper_decl_delta, hnone, string_append_empty]
  · intro fs gs
    rw [emitModuleDefs_append]
    simp [emitModuleDefs, string_append_assoc]

/-- C5 (witness): the amended behaviour at the concrete vararg function. -/
theorem C5_witness :
    functionWrapper_decl_delta varargExample =
      "SWIGIMPORT " ++ varargExample.rettype ++ " " ++ varargExample.wname :=
  (C5_vararg_rejected varargExample
    ⟨⟨false, false, true, "arg1", some "int"⟩, by decide, rfl, rfl, rfl⟩).2.2.2.1

theorem proxy_idem (nsP : Option String) (n : CNode) :
    get_c_proxy_name_model nsP (get_c_proxy_name_model nsP n).2 =
      get_c_proxy_name_model nsP n := by
  obtain ⟨sy, ns, na, px, en⟩ := n
  cases px with
  | some p => simp [get_c_proxy_name_model]
  | none => simp [get_c_proxy_name_model]

theorem enum_idem (nsP : Option String) (e : EnumEnv) :
    getEnumName_model nsP (getEnumName_model nsP e).2 = getEnumName_model nsP e := by
  obtain ⟨⟨sy, ns, na, px, en⟩, cls⟩ := e
  cases en with
  | some v => simp [getEnumName_model]
  | none =>
    cases sy with
    | none => simp [getEnumName_model]
    | some sym =>
      cases na with
      | none =>
        cases px <;> cases cls <;> simp [getEnumName_model, get_c_proxy_name_model]
      | some nm =>
        cases hso : scopenamePfxOf nm with
        | none =>
          cases px <;> cases cls <;>
            simp [getEnumName_model, get_c_proxy_name_model, hso]
        | some s =>
          cases px <;> cases cls <;>
            simp [getEnumName_model, get_c_proxy_name_model, hso]

theorem emitNames_idem (nsP : Option String) (e : EnumEnv) :
    emitNamesOnce nsP (emitNamesOnce nsP e).2 = emitNamesOnce nsP e := by
  obtain ⟨⟨sy, ns, na, px, en⟩, cls⟩ := e
  cases na with
  | none =>
    cases px <;> cases en <;> cases sy <;> cases cls <;>
      simp [emitNamesOnce, getEnumName_model, get_c_proxy_name_model]
  | some nm =>
    cases hso : scopenamePfxOf nm with
    | none =>
      cases px <;> cases en <;> cases sy <;> cases cls <;>
        simp [emitNamesOnce, getEnumName_model, get_c_proxy_name_model, hso]
    | some s =>
      cases px <;> cases en <;> cases sy <;> cases cls <;>
        simp [emitNamesOnce, getEnumName_model, get_c_proxy_name_model, hso]

/-- C9: the derived-name caches are idempotent: a second call to
get_c_proxy_name or getEnumName on the tree left by the first call
returns the same string and leaves the tree unchanged, and repeating the
modelled name-emitting traversal over the same environment produces the
same output and the same final tree, so a re-run over the unchanged input
tree reproduces the output byte for byte. -/
theorem C9_emission_idempotent :
    ∀ (nsP : Option String) (n : CNode) (e : EnumEnv),
      get_c_proxy_name_model nsP (get_c_proxy_name_model nsP n).2 =
        get_c_proxy_name_model nsP n ∧
      getEnumName_model nsP (getEnumName_model nsP e).2 = getEnumName_model nsP e ∧
      emitNamesOnce nsP (emitNamesOnce nsP e).2 = emitNamesOnce nsP e :=
  fun nsP n e => ⟨proxy_idem nsP n, enum_idem nsP e, emitNames_idem nsP e⟩
